import Mathlib

/-!
Shallow embedding of the vella-sdk binary release/install pipeline.

The installer is `scripts/postinstall.js`: it decides whether a download is
needed (`shouldSkipDownload`), downloads the versioned archive following HTTP
redirects (`downloadWithProgress`), extracts it, moves each manifest member to
its destination, records the installed version in the `.binary-version` marker
file, and cleans up its temporary directory.  The publisher is the release
shell script that stages the six static libraries, tars them and uploads the
archive to S3-compatible storage.

File-system and network effects are modelled by an explicit environment:
the outcome of reading the marker file, an access predicate on destination
paths, the HTTP server as a function from URL to outcome, the post-extraction
status of each archive member, and boolean outcomes for the effects the code
explicitly branches on (destination write stream errors, `tar.x`, removal of
the temporary directory).  Effects the code does not branch on (`mkdtemp`,
`mkdir`, the marker `writeFile`) are taken to succeed.
-/

namespace VellaSDK

/-- One entry of the binary manifest in `scripts/postinstall.js`: the archive
member name and the destination path relative to the project root. -/
structure BinEntry where
  name : String
  dest : String
deriving DecidableEq

/-- The fixed six-entry manifest `binaries` of `scripts/postinstall.js`:
four Android ABIs and two iOS slices. -/
def binaries : List BinEntry :=
  [ ⟨"android-arm64-v8a.a", "android/src/main/jniLibs/arm64-v8a/libvella_sdk.a"⟩,
    ⟨"android-armeabi-v7a.a", "android/src/main/jniLibs/armeabi-v7a/libvella_sdk.a"⟩,
    ⟨"android-x86.a", "android/src/main/jniLibs/x86/libvella_sdk.a"⟩,
    ⟨"android-x86_64.a", "android/src/main/jniLibs/x86_64/libvella_sdk.a"⟩,
    ⟨"ios-arm64.a", "ios/VellaSDK.xcframework/ios-arm64/libvella_sdk.a"⟩,
    ⟨"ios-arm64_x86_64-simulator.a",
      "ios/VellaSDK.xcframework/ios-arm64_x86_64-simulator/libvella_sdk.a"⟩ ]

/-- The version string of `package.json` at the time of writing. -/
def pkgVersion : String := "0.1.38"

/-- Name of the archive for a version, `vella-sdk-libs-<version>.tar.gz`. -/
def archiveName (version : String) : String :=
  "vella-sdk-libs-" ++ version ++ ".tar.gz"

/-- The Supabase storage URL the installer downloads the archive from. -/
def archiveUrl (version : String) : String :=
  "https://qqzbfyxqzqdkcycxyoyj.supabase.co/storage/v1/object/public/vella-sdk/"
    ++ archiveName version

/-- JavaScript `String.prototype.trim`: strip leading and trailing
whitespace.  Defined over the character list so that it evaluates by
kernel reduction. -/
def jsTrim (s : String) : String :=
  ⟨((s.data.dropWhile Char.isWhitespace).reverse.dropWhile Char.isWhitespace).reverse⟩

/-- Outcome of `fs.promises.readFile` on the `.binary-version` marker file:
the file is absent (ENOENT), the read fails for another reason, or it yields
a string. -/
inductive ReadResult where
  | enoent
  | otherError
  | content (raw : String)
deriving DecidableEq

/-- `shouldSkipDownload` of `scripts/postinstall.js`: returns `true` exactly
when the marker file was read, its trimmed contents equal the current version,
and every manifest destination is accessible; every error path returns
`false` (download needed). -/
def shouldSkipDownload (version : String) (readMarker : ReadResult)
    (accessDest : String → Bool) : Bool :=
  match readMarker with
  | .enoent => false
  | .otherError => false
  | .content raw =>
    if jsTrim raw ≠ version then false
    else binaries.all fun bin => accessDest bin.dest

/-- An HTTP response as the installer sees it: status code, optional
`Location` header and body bytes (modelled as a string). -/
structure HttpResponse where
  status : Nat
  location : Option String
  body : String
deriving DecidableEq

/-- Outcome of one `https.get`: a response, a network error, or a timeout. -/
inductive FetchOutcome where
  | response (r : HttpResponse)
  | netError (msg : String)
  | timeout
deriving DecidableEq

/-- Result of `downloadWithProgress`: either the bytes written to the
destination file, or a rejection message. -/
inductive DownloadResult where
  | ok (written : String)
  | err (msg : String)
deriving DecidableEq

/-- Truthiness of `res.headers.location` in JavaScript: present and
non-empty.  An empty `Location` header is falsy, so such a response is not
followed as a redirect. -/
def isTruthyLocation : Option String → Bool
  | none => false
  | some l => l ≠ ""

/-- The redirect-follow condition of `downloadWithProgress`:
`res.statusCode >= 300 && res.statusCode < 400 && res.headers.location`. -/
def isRedirect (r : HttpResponse) : Bool :=
  (300 ≤ r.status) && (r.status < 400) && isTruthyLocation r.location

/-- `downloadWithProgress` of `scripts/postinstall.js`.  `server` maps a URL
to the outcome of `https.get`; `resolveUrl loc current` models
`new URL(loc, current).toString()`; `writeOk` is whether the destination
write stream succeeds.  The JavaScript recursion on redirects is unbounded;
`fuel` bounds it in the model, with exhaustion reported as an error. -/
def downloadWithProgress (server : String → FetchOutcome)
    (resolveUrl : String → String → String) (writeOk : Bool) :
    Nat → String → DownloadResult
  | 0, currentUrl => .err ("Redirect recursion did not terminate at " ++ currentUrl)
  | fuel + 1, currentUrl =>
    match server currentUrl with
    | .netError msg =>
      .err ("Network error downloading " ++ currentUrl ++ ": " ++ msg)
    | .timeout => .err ("Network timeout downloading " ++ currentUrl)
    | .response r =>
      if isRedirect r then
        downloadWithProgress server resolveUrl writeOk fuel
          (resolveUrl (r.location.getD "") currentUrl)
      else if r.status ≠ 200 then
        .err ("Download failed - status " ++ toString r.status ++ "\nURL: " ++ currentUrl)
      else if writeOk then .ok r.body
      else .err "File system error writing to destination"

/-- Status of one archive member after extraction, as seen by the
`access`/`rename` pair in the placement loop: the member is present and moves
fine, the access fails with ENOENT, or the move fails with some other
error. -/
inductive MemberStatus where
  | present
  | enoent
  | otherError (msg : String)
deriving DecidableEq

/-- The placement loop of the installer main function: walk the manifest in
order; a present member is moved (counted), an ENOENT member is warned and
skipped (its name collected), and any other error aborts the whole loop with
a thrown error. -/
def moveBinaries (status : String → MemberStatus) :
    List BinEntry → Except String (Nat × List String)
  | [] => .ok (0, [])
  | bin :: rest =>
    match status bin.name with
    | .present =>
      (moveBinaries status rest).map fun p => (p.1 + 1, p.2)
    | .enoent =>
      (moveBinaries status rest).map fun p => (p.1, bin.name :: p.2)
    | .otherError msg =>
      .error ("Error moving " ++ bin.name ++ ": " ++ msg)

/-- What the run did to the `.binary-version` marker file: left it alone,
wrote a version into it, or attempted to delete it (`unlink`, deleting the
file if present; a failed unlink is only warned about). -/
inductive MarkerAction where
  | untouched
  | written (v : String)
  | deleteAttempted
deriving DecidableEq

/-- Observable outcome of one installer run. -/
structure RunResult where
  exitCode : Nat
  fetchAttempted : Bool
  markerAction : MarkerAction
  tempCreated : Bool
  tempRemoveAttempted : Bool
  tempRemoved : Bool
  placedCount : Nat
  warnedMissing : List String
  shortfallWarning : Bool
deriving DecidableEq

/-- Environment of one installer run: the current version, the marker read
outcome, destination accessibility, the network, and the outcomes of the
effects the code branches on. -/
structure InstallEnv where
  version : String
  readMarker : ReadResult
  accessDest : String → Bool
  server : String → FetchOutcome
  resolveUrl : String → String → String
  downloadFuel : Nat
  destWriteOk : Bool
  extractOk : Bool
  memberStatus : String → MemberStatus
  rmTempOk : Bool

/-- The download step of a run. -/
def downloadOutcome (env : InstallEnv) : DownloadResult :=
  downloadWithProgress env.server env.resolveUrl env.destWriteOk
    env.downloadFuel (archiveUrl env.version)

/-- The `try` block of the installer main function after the temporary
directory exists: download, extract, place the members, and on at least one
placed member write the marker (recording whether the shortfall warning
fires); zero placed members throws. -/
def installBody (env : InstallEnv) :
    Except String (MarkerAction × Nat × List String × Bool) :=
  match downloadOutcome env with
  | .err e => .error e
  | .ok _ =>
    if env.extractOk then
      match moveBinaries env.memberStatus binaries with
      | .error e => .error e
      | .ok (count, warned) =>
        if 0 < count then
          .ok (.written env.version, count, warned, count ≠ binaries.length)
        else .error "No binaries were found or moved from the archive."
    else .error "Extraction failed"

/-- The installer main function of `scripts/postinstall.js`: skip when
`shouldSkipDownload` says so (no effects at all); otherwise create a
temporary directory, run the body, on a thrown error set exit code 1 and
unlink the marker, and in all cases attempt to remove the temporary
directory (a failed removal is only logged). -/
def runInstaller (env : InstallEnv) : RunResult :=
  if shouldSkipDownload env.version env.readMarker env.accessDest then
    { exitCode := 0, fetchAttempted := false, markerAction := .untouched,
      tempCreated := false, tempRemoveAttempted := false, tempRemoved := false,
      placedCount := 0, warnedMissing := [], shortfallWarning := false }
  else
    match installBody env with
    | .ok (ma, count, warned, shortfall) =>
      { exitCode := 0, fetchAttempted := true, markerAction := ma,
        tempCreated := true, tempRemoveAttempted := true,
        tempRemoved := env.rmTempOk, placedCount := count,
        warnedMissing := warned, shortfallWarning := shortfall }
    | .error _ =>
      { exitCode := 1, fetchAttempted := true, markerAction := .deleteAttempted,
        tempCreated := true, tempRemoveAttempted := true,
        tempRemoved := env.rmTempOk, placedCount := 0,
        warnedMissing := [], shortfallWarning := false }

/-! ## Publisher (release shell script) -/

/-- The `SOURCES` array of the release script: archive member name paired
with the source path. -/
def SOURCES : List (String × String) :=
  [ ("android-arm64-v8a.a", "android/src/main/jniLibs/arm64-v8a/libvella_sdk.a"),
    ("android-armeabi-v7a.a", "android/src/main/jniLibs/armeabi-v7a/libvella_sdk.a"),
    ("android-x86.a", "android/src/main/jniLibs/x86/libvella_sdk.a"),
    ("android-x86_64.a", "android/src/main/jniLibs/x86_64/libvella_sdk.a"),
    ("ios-arm64.a", "ios/VellaSDK.xcframework/ios-arm64/libvella_sdk.a"),
    ("ios-arm64_x86_64-simulator.a",
      "ios/VellaSDK.xcframework/ios-arm64_x86_64-simulator/libvella_sdk.a") ]

/-- Environment of one publisher run: the four required variables (empty
string means unset, matching the shell `-z` test), the `jq` version output,
which source paths exist, and whether `tar` and the upload succeed. -/
structure PublishEnv where
  s3Endpoint : String
  awsKeyId : String
  awsSecret : String
  s3Bucket : String
  versionStr : String
  srcExists : String → Bool
  tarOk : Bool
  uploadOk : Bool

/-- Observable outcome of one publisher run. -/
structure PublishResult where
  exitCode : Nat
  tmpDirCreated : Bool
  copiedCount : Nat
  archiveCreated : Bool
  uploadAttempted : Bool
deriving DecidableEq

/-- The copy loop of the release script: copy sources in order, aborting at
the first missing one (`none`); otherwise return how many were copied. -/
def copyAll (srcExists : String → Bool) : List (String × String) → Option Nat
  | [] => some 0
  | entry :: rest =>
    if srcExists entry.2 then (copyAll srcExists rest).map (· + 1)
    else none

/-- The release script: check the four environment variables, check the
version, create the temp dir, copy every source (aborting if one is
missing), create the archive with `tar`, upload it.  `set -e` makes a failed
`tar` or upload exit non-zero. -/
def runPublisher (env : PublishEnv) : PublishResult :=
  if env.s3Endpoint = "" ∨ env.awsKeyId = "" ∨ env.awsSecret = "" ∨ env.s3Bucket = "" then
    { exitCode := 1, tmpDirCreated := false, copiedCount := 0,
      archiveCreated := false, uploadAttempted := false }
  else if env.versionStr = "" then
    { exitCode := 1, tmpDirCreated := false, copiedCount := 0,
      archiveCreated := false, uploadAttempted := false }
  else
    match copyAll env.srcExists SOURCES with
    | none =>
      { exitCode := 1, tmpDirCreated := true, copiedCount := 0,
        archiveCreated := false, uploadAttempted := false }
    | some n =>
      if env.tarOk then
        if env.uploadOk then
          { exitCode := 0, tmpDirCreated := true, copiedCount := n,
            archiveCreated := true, uploadAttempted := true }
        else
          { exitCode := 1, tmpDirCreated := true, copiedCount := n,
            archiveCreated := true, uploadAttempted := true }
      else
        { exitCode := 1, tmpDirCreated := true, copiedCount := n,
          archiveCreated := false, uploadAttempted := false }

/-! ## Redirect chains, as a specification device -/

/-- `ReachesIn server resolveUrl n url r`: starting at `url`, following
exactly `n` redirect hops (3xx responses with a truthy `Location` header)
leads to the non-redirect response `r`. -/
inductive ReachesIn (server : String → FetchOutcome)
    (resolveUrl : String → String → String) : Nat → String → HttpResponse → Prop where
  | direct (url : String) (r : HttpResponse) (hs : server url = .response r)
      (hnr : isRedirect r = false) : ReachesIn server resolveUrl 0 url r
  | step (url : String) (r final : HttpResponse) (n : Nat)
      (hs : server url = .response r) (hr : isRedirect r = true)
      (hrest : ReachesIn server resolveUrl n
        (resolveUrl (r.location.getD "") url) final) :
      ReachesIn server resolveUrl (n + 1) url final

/-- `NetFailsIn server resolveUrl n url`: starting at `url`, following `n`
redirect hops ends in a network error or a timeout. -/
inductive NetFailsIn (server : String → FetchOutcome)
    (resolveUrl : String → String → String) : Nat → String → Prop where
  | netErrorHere (url : String) (msg : String) (hs : server url = .netError msg) :
      NetFailsIn server resolveUrl 0 url
  | timeoutHere (url : String) (hs : server url = .timeout) :
      NetFailsIn server resolveUrl 0 url
  | step (url : String) (r : HttpResponse) (n : Nat)
      (hs : server url = .response r) (hr : isRedirect r = true)
      (hrest : NetFailsIn server resolveUrl n (resolveUrl (r.location.getD "") url)) :
      NetFailsIn server resolveUrl (n + 1) url

/-! ## Concrete environments used as witnesses and counterexamples -/

/-- A server that answers every request with status 204 (No Content). -/
def srv204 : String → FetchOutcome := fun _ => .response ⟨204, none, ""⟩

/-- A server with a two-hop redirect chain ending in a 200. -/
def srvChain : String → FetchOutcome := fun u =>
  if u = "https://a.test/x" then .response ⟨301, some "https://b.test/y", ""⟩
  else if u = "https://b.test/y" then .response ⟨302, some "https://c.test/z", ""⟩
  else if u = "https://c.test/z" then .response ⟨200, none, "PAYLOAD"⟩
  else .netError "no route"

/-- An environment whose marker matches the current version and whose
destinations all exist: the skip path. -/
def envSkip : InstallEnv :=
  { version := "0.1.38", readMarker := .content " 0.1.38\n",
    accessDest := fun _ => true, server := fun _ => .timeout,
    resolveUrl := fun l _ => l, downloadFuel := 1, destWriteOk := true,
    extractOk := true, memberStatus := fun _ => .present, rmTempOk := true }

/-- An environment where everything succeeds and all six members are
present: the full-success path. -/
def envFull : InstallEnv :=
  { version := "0.1.38", readMarker := .enoent, accessDest := fun _ => false,
    server := fun _ => .response ⟨200, none, "ARCHIVE"⟩,
    resolveUrl := fun l _ => l, downloadFuel := 1, destWriteOk := true,
    extractOk := true, memberStatus := fun _ => .present, rmTempOk := true }

/-- An environment where the archive only contains the first member: one
member placed, five ENOENT warnings. -/
def envPartial : InstallEnv :=
  { version := "0.1.38", readMarker := .enoent, accessDest := fun _ => false,
    server := fun _ => .response ⟨200, none, "ARCHIVE"⟩,
    resolveUrl := fun l _ => l, downloadFuel := 1, destWriteOk := true,
    extractOk := true,
    memberStatus := fun name =>
      if name = "android-arm64-v8a.a" then .present else .enoent,
    rmTempOk := true }

/-- An environment where moving the second member fails with a permission
error. -/
def envPerm : InstallEnv :=
  { version := "0.1.38", readMarker := .enoent, accessDest := fun _ => false,
    server := fun _ => .response ⟨200, none, "ARCHIVE"⟩,
    resolveUrl := fun l _ => l, downloadFuel := 1, destWriteOk := true,
    extractOk := true,
    memberStatus := fun name =>
      if name = "android-armeabi-v7a.a" then .otherError "EACCES" else .present,
    rmTempOk := true }

/-- An environment where the server answers 404 to every request. -/
def env404 : InstallEnv :=
  { version := "0.1.38", readMarker := .content "0.1.37",
    accessDest := fun _ => true, server := fun _ => .response ⟨404, none, ""⟩,
    resolveUrl := fun l _ => l, downloadFuel := 1, destWriteOk := true,
    extractOk := true, memberStatus := fun _ => .present, rmTempOk := true }

/-- An environment where the download hits a network error and removing the
temporary directory also fails. -/
def envRmFail : InstallEnv :=
  { version := "0.1.38", readMarker := .enoent, accessDest := fun _ => true,
    server := fun _ => .netError "ECONNREFUSED",
    resolveUrl := fun l _ => l, downloadFuel := 1, destWriteOk := true,
    extractOk := true, memberStatus := fun _ => .present, rmTempOk := false }

/-- A second-run environment reflecting the state `envFull` leaves behind:
marker written with the version, all destinations present. -/
def envSecond : InstallEnv :=
  { version := "0.1.38", readMarker := .content "0.1.38",
    accessDest := fun _ => true, server := fun _ => .netError "offline",
    resolveUrl := fun l _ => l, downloadFuel := 1, destWriteOk := true,
    extractOk := true, memberStatus := fun _ => .present, rmTempOk := true }

/-- A publisher environment with all variables set but one source file
missing. -/
def pubEnvMissingSrc : PublishEnv :=
  { s3Endpoint := "https://s3.example.test", awsKeyId := "AK", awsSecret := "SK",
    s3Bucket := "vella-sdk", versionStr := "0.1.38",
    srcExists := fun p => p ≠ "ios/VellaSDK.xcframework/ios-arm64/libvella_sdk.a",
    tarOk := true, uploadOk := true }

/-- A publisher environment missing a required variable. -/
def pubEnvNoSecret : PublishEnv :=
  { s3Endpoint := "https://s3.example.test", awsKeyId := "AK", awsSecret := "",
    s3Bucket := "vella-sdk", versionStr := "0.1.38",
    srcExists := fun _ => true, tarOk := true, uploadOk := true }

/-! ## Helper lemmas -/

theorem binaries_length : binaries.length = 6 := rfl

theorem shouldSkipDownload_eq_true_iff (version : String) (r : ReadResult)
    (a : String → Bool) :
    shouldSkipDownload version r a = true ↔
      ∃ raw, r = .content raw ∧ jsTrim raw = version ∧
        ∀ bin ∈ binaries, a bin.dest = true := by
  cases r with
  | enoent => simp [shouldSkipDownload]
  | otherError => simp [shouldSkipDownload]
  | content raw =>
    by_cases h : jsTrim raw = version
    · simp [shouldSkipDownload, h, List.all_eq_true]
    · simp [shouldSkipDownload, h]

theorem except_map_error_iff {α β γ : Type} (f : α → β) (x : Except γ α) :
    (∃ e, x.map f = .error e) ↔ ∃ e, x = .error e := by
  cases x <;> simp [Except.map]

theorem moveBinaries_error_exists_iff (status : String → MemberStatus)
    (l : List BinEntry) :
    (∃ e, moveBinaries status l = .error e) ↔
      ∃ bin ∈ l, ∃ msg, status bin.name = .otherError msg := by
  induction l with
  | nil => simp [moveBinaries]
  | cons bin rest ih =>
    cases hs : status bin.name with
    | present => simp [moveBinaries, hs, except_map_error_iff, ih]
    | enoent => simp [moveBinaries, hs, except_map_error_iff, ih]
    | otherError msg => simp [moveBinaries, hs]

theorem runInstaller_of_skip (env : InstallEnv)
    (h : shouldSkipDownload env.version env.readMarker env.accessDest = true) :
    runInstaller env =
      { exitCode := 0, fetchAttempted := false, markerAction := .untouched,
        tempCreated := false, tempRemoveAttempted := false, tempRemoved := false,
        placedCount := 0, warnedMissing := [], shortfallWarning := false } := by
  simp [runInstaller, h]

theorem runInstaller_of_error (env : InstallEnv)
    (h : shouldSkipDownload env.version env.readMarker env.accessDest = false)
    (e : String) (he : installBody env = .error e) :
    runInstaller env =
      { exitCode := 1, fetchAttempted := true, markerAction := .deleteAttempted,
        tempCreated := true, tempRemoveAttempted := true,
        tempRemoved := env.rmTempOk, placedCount := 0,
        warnedMissing := [], shortfallWarning := false } := by
  simp [runInstaller, h, he]

theorem runInstaller_of_ok (env : InstallEnv)
    (h : shouldSkipDownload env.version env.readMarker env.accessDest = false)
    (ma : MarkerAction) (count : Nat) (warned : List String) (shortfall : Bool)
    (hb : installBody env = .ok (ma, count, warned, shortfall)) :
    runInstaller env =
      { exitCode := 0, fetchAttempted := true, markerAction := ma,
        tempCreated := true, tempRemoveAttempted := true,
        tempRemoved := env.rmTempOk, placedCount := count,
        warnedMissing := warned, shortfallWarning := shortfall } := by
  simp [runInstaller, h, hb]

theorem installBody_ok_of_moved (env : InstallEnv) (body : String) (n : Nat)
    (w : List String) (hdl : downloadOutcome env = .ok body)
    (hext : env.extractOk = true)
    (hmv : moveBinaries env.memberStatus binaries = .ok (n, w)) (hn : 1 ≤ n) :
    installBody env = .ok (.written env.version, n, w, decide (n ≠ binaries.length)) := by
  simp [installBody, hdl, hext, hmv, hn, Nat.lt_of_lt_of_le Nat.zero_lt_one hn]

theorem installBody_error_of_none_moved (env : InstallEnv) (body : String)
    (w : List String) (hdl : downloadOutcome env = .ok body)
    (hext : env.extractOk = true)
    (hmv : moveBinaries env.memberStatus binaries = .ok (0, w)) :
    installBody env = .error "No binaries were found or moved from the archive." := by
  simp [installBody, hdl, hext, hmv]

/-! ## Claims -/

/-- C1: the installer skips all network work, succeeding with no side
effects, if and only if the marker file was read, its trimmed contents equal
the current version, and every one of the six manifest destinations is
accessible; otherwise it attempts a fetch. -/
theorem installer_skip_characterization (env : InstallEnv) :
    ((runInstaller env).fetchAttempted = false ↔
      ∃ raw, env.readMarker = .content raw ∧ jsTrim raw = env.version ∧
        ∀ bin ∈ binaries, env.accessDest bin.dest = true) ∧
    ((runInstaller env).fetchAttempted = false →
      (runInstaller env).exitCode = 0 ∧
      (runInstaller env).markerAction = .untouched ∧
      (runInstaller env).tempCreated = false ∧
      (runInstaller env).placedCount = 0) := by
  by_cases h : shouldSkipDownload env.version env.readMarker env.accessDest = true
  · rw [runInstaller_of_skip env h]
    exact ⟨by simpa using (shouldSkipDownload_eq_true_iff _ _ _).mp h,
      fun _ => ⟨rfl, rfl, rfl, rfl⟩⟩
  · have h' : shouldSkipDownload env.version env.readMarker env.accessDest = false :=
      Bool.eq_false_iff.mpr h
    have hnot : ¬ ∃ raw, env.readMarker = .content raw ∧ jsTrim raw = env.version ∧
        ∀ bin ∈ binaries, env.accessDest bin.dest = true := by
      intro hex
      have hskip := (shouldSkipDownload_eq_true_iff env.version env.readMarker
        env.accessDest).mpr hex
      rw [h'] at hskip
      exact Bool.noConfusion hskip
    have hfetch : (runInstaller env).fetchAttempted = true := by
      cases hb : installBody env with
      | ok v =>
        rw [runInstaller_of_ok env h' v.1 v.2.1 v.2.2.1 v.2.2.2 (by rw [hb])]
      | error e =>
        rw [runInstaller_of_error env h' e hb]
    constructor
    · rw [hfetch]
      simp [hnot]
    · intro hcontra
      rw [hfetch] at hcontra
      exact absurd hcontra (by simp)

/-- C1 witness: a matching marker with all destinations present skips the
fetch and exits successfully. -/
theorem installer_skip_characterization_witness :
    (runInstaller envSkip).fetchAttempted = false ∧
    (runInstaller envSkip).exitCode = 0 := by
  have h := installer_skip_characterization envSkip
  have hskip : (runInstaller envSkip).fetchAttempted = false :=
    h.1.mpr ⟨" 0.1.38\n", rfl, by decide, by decide⟩
  exact ⟨hskip, (h.2 hskip).1⟩

/-- C10: `shouldSkipDownload` maps every error outcome to `false`: an absent
or unreadable marker, or any inaccessible destination, yields `false`
(download needed) rather than an exception; the function is total by
construction. -/
theorem shouldSkipDownload_error_safety (version : String) (r : ReadResult)
    (a : String → Bool) :
    ((r = .enoent ∨ r = .otherError) → shouldSkipDownload version r a = false) ∧
    ((∃ bin ∈ binaries, a bin.dest = false) →
      shouldSkipDownload version r a = false) ∧
    (shouldSkipDownload version r a = true →
      ∃ raw, r = .content raw ∧ jsTrim raw = version) := by
  refine ⟨fun h => ?_, fun h => ?_, fun h => ?_⟩
  · rcases h with h | h <;> subst h <;> rfl
  · rcases h with ⟨bin, hmem, hfalse⟩
    cases r with
    | enoent => rfl
    | otherError => rfl
    | content raw =>
      by_cases hv : jsTrim raw = version
      · simp only [shouldSkipDownload, hv]
        simp only [ne_eq, not_true_eq_false, if_false]
        exact List.all_eq_false.mpr ⟨bin, hmem, by simp [hfalse]⟩
      · simp [shouldSkipDownload, hv]
  · rcases (shouldSkipDownload_eq_true_iff version r a).mp h with ⟨raw, hr, hv, _⟩
    exact ⟨raw, hr, hv⟩

/-- C10 witness: an unreadable marker and a missing destination both yield
`false`. -/
theorem shouldSkipDownload_error_safety_witness :
    shouldSkipDownload "0.1.38" .otherError (fun _ => true) = false ∧
    shouldSkipDownload "0.1.38" (.content "0.1.38") (fun _ => false) = false := by
  refine ⟨(shouldSkipDownload_error_safety "0.1.38" .otherError (fun _ => true)).1
      (Or.inr rfl),
    (shouldSkipDownload_error_safety "0.1.38" (.content "0.1.38")
      (fun _ => false)).2.1 ?_⟩
  exact ⟨⟨"android-arm64-v8a.a", "android/src/main/jniLibs/arm64-v8a/libvella_sdk.a"⟩,
    by decide, rfl⟩

theorem installBody_ok_inversion (env : InstallEnv) (ma : MarkerAction)
    (count : Nat) (warned : List String) (shortfall : Bool)
    (hb : installBody env = .ok (ma, count, warned, shortfall)) :
    ma = .written env.version ∧
    moveBinaries env.memberStatus binaries = .ok (count, warned) ∧ 1 ≤ count := by
  cases hdl : downloadOutcome env with
  | err e => simp [installBody, hdl] at hb
  | ok body =>
    cases hext : env.extractOk with
    | false => simp [installBody, hdl, hext] at hb
    | true =>
      cases hmv : moveBinaries env.memberStatus binaries with
      | error e => simp [installBody, hdl, hext, hmv] at hb
      | ok p =>
        obtain ⟨c, wm⟩ := p
        rcases Nat.eq_zero_or_pos c with hc | hc
        · subst hc
          simp [installBody, hdl, hext, hmv] at hb
        · simp [installBody, hdl, hext, hmv, hc] at hb
          obtain ⟨hma, hcnt, hw, _⟩ := hb
          subst hcnt
          subst hw
          exact ⟨hma.symm, rfl, hc⟩

/-- C2: after a run that downloads, extracts, and whose placement loop
completes, the marker is written if and only if at least one member was
placed; one to five placed members fire the shortfall warning but exit
zero, while zero placed members is fatal: exit code 1 and marker deletion. -/
theorem marker_recording (env : InstallEnv) (n : Nat) (w : List String)
    (body : String)
    (hskip : shouldSkipDownload env.version env.readMarker env.accessDest = false)
    (hdl : downloadOutcome env = .ok body)
    (hext : env.extractOk = true)
    (hmv : moveBinaries env.memberStatus binaries = .ok (n, w)) :
    ((runInstaller env).markerAction = .written env.version ↔ 1 ≤ n) ∧
    (1 ≤ n → (runInstaller env).exitCode = 0 ∧
      (runInstaller env).placedCount = n ∧
      (runInstaller env).shortfallWarning = decide (n ≠ 6)) ∧
    (n = 0 → (runInstaller env).exitCode = 1 ∧
      (runInstaller env).markerAction = .deleteAttempted) := by
  rcases Nat.eq_zero_or_pos n with hz | hpos
  · subst hz
    rw [runInstaller_of_error env hskip _
      (installBody_error_of_none_moved env body w hdl hext hmv)]
    refine ⟨⟨fun hc => absurd hc (by simp), fun hle => absurd hle (by simp)⟩,
      fun hle => absurd hle (by simp), fun _ => ⟨rfl, rfl⟩⟩
  · rw [runInstaller_of_ok env hskip _ n w _
      (installBody_ok_of_moved env body n w hdl hext hmv hpos)]
    exact ⟨⟨fun _ => hpos, fun _ => rfl⟩,
      fun _ => ⟨rfl, rfl, rfl⟩, fun hz => absurd hz (by omega)⟩

/-- C2 witness: an archive containing only the first member places one of
six, writes the marker, warns about the shortfall, and exits zero. -/
theorem marker_recording_witness :
    (runInstaller envPartial).markerAction = .written "0.1.38" ∧
    (runInstaller envPartial).exitCode = 0 ∧
    (runInstaller envPartial).shortfallWarning = true := by
  have h := marker_recording envPartial 1
    ["android-armeabi-v7a.a", "android-x86.a", "android-x86_64.a",
     "ios-arm64.a", "ios-arm64_x86_64-simulator.a"] "ARCHIVE" rfl rfl rfl rfl
  refine ⟨h.1.mpr (by decide), (h.2.1 (by decide)).1, ?_⟩
  rw [(h.2.1 (by decide)).2.2]
  decide

/-- C9: during placement only ENOENT on a member is a non-fatal warning;
any other move error aborts the install fatally with marker deletion and
exit code 1, while runs whose members are only present-or-ENOENT with at
least one present exit zero and warn exactly for the ENOENT members. -/
theorem placement_error_fatality (env : InstallEnv) (body : String)
    (hskip : shouldSkipDownload env.version env.readMarker env.accessDest = false)
    (hdl : downloadOutcome env = .ok body)
    (hext : env.extractOk = true) :
    ((∃ bin ∈ binaries, ∃ msg, env.memberStatus bin.name = .otherError msg) →
      (runInstaller env).exitCode = 1 ∧
      (runInstaller env).markerAction = .deleteAttempted) ∧
    (∀ n wmiss, moveBinaries env.memberStatus binaries = .ok (n, wmiss) →
      1 ≤ n →
      (runInstaller env).exitCode = 0 ∧
      (runInstaller env).warnedMissing = wmiss) := by
  constructor
  · intro hex
    rcases (moveBinaries_error_exists_iff env.memberStatus binaries).mpr hex with ⟨e, he⟩
    have hbody : installBody env = .error e := by
      simp [installBody, hdl, hext, he]
    rw [runInstaller_of_error env hskip e hbody]
    exact ⟨rfl, rfl⟩
  · intro n wmiss hmv hn
    rw [runInstaller_of_ok env hskip _ n wmiss _
      (installBody_ok_of_moved env body n wmiss hdl hext hmv hn)]
    exact ⟨rfl, rfl⟩

/-- C9 witness: a permission error moving the second member is fatal and
deletes the marker. -/
theorem placement_error_fatality_witness :
    (runInstaller envPerm).exitCode = 1 ∧
    (runInstaller envPerm).markerAction = .deleteAttempted :=
  (placement_error_fatality envPerm "ARCHIVE" rfl rfl rfl).1
    ⟨⟨"android-armeabi-v7a.a", "android/src/main/jniLibs/armeabi-v7a/libvella_sdk.a"⟩,
      by decide, "EACCES", rfl⟩

/-- C5 counterexample: a run that places only one of the six members still
writes the marker, so the marker is mutated in runs that are not full
successes. -/
theorem marker_written_on_partial_success :
    (runInstaller envPartial).markerAction = .written "0.1.38" ∧
    (runInstaller envPartial).placedCount = 1 ∧
    (runInstaller envPartial).placedCount ≠ binaries.length := by decide

/-- C5 amended: the marker is written only in runs whose placement loop
completed with at least one member placed (not necessarily all six), and
every failing run (non-zero exit) attempts deletion of the marker. -/
theorem marker_mutation_policy (env : InstallEnv) :
    ((runInstaller env).markerAction = .written env.version →
      ∃ n wmiss, moveBinaries env.memberStatus binaries = .ok (n, wmiss) ∧
        1 ≤ n ∧ (runInstaller env).exitCode = 0) ∧
    ((runInstaller env).exitCode ≠ 0 →
      (runInstaller env).markerAction = .deleteAttempted) := by
  by_cases h : shouldSkipDownload env.version env.readMarker env.accessDest = true
  · rw [runInstaller_of_skip env h]
    exact ⟨fun hc => absurd hc (by simp), fun hc => absurd rfl hc⟩
  · have h' := Bool.eq_false_iff.mpr h
    cases hb : installBody env with
    | ok v =>
      obtain ⟨ma, count, warned, shortfall⟩ := v
      obtain ⟨hma, hmv, hc⟩ := installBody_ok_inversion env ma count warned shortfall hb
      rw [runInstaller_of_ok env h' ma count warned shortfall hb]
      exact ⟨fun _ => ⟨count, warned, hmv, hc, rfl⟩, fun hc' => absurd rfl hc'⟩
    | error e =>
      rw [runInstaller_of_error env h' e hb]
      exact ⟨fun hc => absurd hc (by simp), fun _ => rfl⟩

/-- C5 amended witness: in the partial-success run the marker write is
backed by a completed placement loop with one member placed. -/
theorem marker_mutation_policy_witness :
    ∃ n wmiss, moveBinaries envPartial.memberStatus binaries = .ok (n, wmiss) ∧
      1 ≤ n ∧ (runInstaller envPartial).exitCode = 0 :=
  (marker_mutation_policy envPartial).1 (by decide)

theorem downloadWithProgress_of_reaches (server : String → FetchOutcome)
    (resolveUrl : String → String → String) (writeOk : Bool) {n : Nat}
    {url : String} {r : HttpResponse}
    (h : ReachesIn server resolveUrl n url r) :
    ∀ fuel, n < fuel →
      (r.status = 200 → writeOk = true →
        downloadWithProgress server resolveUrl writeOk fuel url = .ok r.body) ∧
      ((r.status ≠ 200 ∨ writeOk = false) →
        ∃ e, downloadWithProgress server resolveUrl writeOk fuel url = .err e) := by
  induction h with
  | direct url r hs hnr =>
    intro fuel hfuel
    obtain ⟨m, rfl⟩ : ∃ m, fuel = m + 1 := ⟨fuel - 1, by omega⟩
    constructor
    · intro h200 hw
      simp [downloadWithProgress, hs, hnr, h200, hw]
    · intro hbad
      rcases hbad with hb | hb
      · exact ⟨"Download failed - status " ++ toString r.status ++ "\nURL: " ++ url,
          by simp [downloadWithProgress, hs, hnr, hb]⟩
      · by_cases h200 : r.status = 200
        · exact ⟨"File system error writing to destination",
            by simp [downloadWithProgress, hs, hnr, h200, hb]⟩
        · exact ⟨"Download failed - status " ++ toString r.status ++ "\nURL: " ++ url,
            by simp [downloadWithProgress, hs, hnr, h200]⟩
  | step url r final n hs hr hrest ih =>
    intro fuel hfuel
    obtain ⟨m, rfl⟩ : ∃ m, fuel = m + 1 := ⟨fuel - 1, by omega⟩
    have hm : n < m := by omega
    constructor
    · intro h200 hw
      have hrec := (ih m hm).1 h200 hw
      simpa [downloadWithProgress, hs, hr] using hrec
    · intro hbad
      obtain ⟨e, he⟩ := (ih m hm).2 hbad
      exact ⟨e, by simpa [downloadWithProgress, hs, hr] using he⟩

theorem downloadWithProgress_err_of_netfails (server : String → FetchOutcome)
    (resolveUrl : String → String → String) (writeOk : Bool) {n : Nat}
    {url : String} (h : NetFailsIn server resolveUrl n url) :
    ∀ fuel, n < fuel →
      ∃ e, downloadWithProgress server resolveUrl writeOk fuel url = .err e := by
  induction h with
  | netErrorHere url msg hs =>
    intro fuel hfuel
    obtain ⟨m, rfl⟩ : ∃ m, fuel = m + 1 := ⟨fuel - 1, by omega⟩
    exact ⟨"Network error downloading " ++ url ++ ": " ++ msg,
      by simp [downloadWithProgress, hs]⟩
  | timeoutHere url hs =>
    intro fuel hfuel
    obtain ⟨m, rfl⟩ : ∃ m, fuel = m + 1 := ⟨fuel - 1, by omega⟩
    exact ⟨"Network timeout downloading " ++ url,
      by simp [downloadWithProgress, hs]⟩
  | step url r n hs hr hrest ih =>
    intro fuel hfuel
    obtain ⟨m, rfl⟩ : ∃ m, fuel = m + 1 := ⟨fuel - 1, by omega⟩
    obtain ⟨e, he⟩ := ih m (by omega)
    exact ⟨e, by simpa [downloadWithProgress, hs, hr] using he⟩

/-- C4: a download whose responses form a chain of 3xx redirects with
`Location` headers, of any depth, terminating in a 200 response succeeds,
and the bytes written to the destination equal the body of the final 200
resource. -/
theorem download_follows_redirect_chains (server : String → FetchOutcome)
    (resolveUrl : String → String → String) (n : Nat) (url : String)
    (r : HttpResponse) (fuel : Nat)
    (h : ReachesIn server resolveUrl n url r) (h200 : r.status = 200)
    (hfuel : n < fuel) :
    downloadWithProgress server resolveUrl true fuel url = .ok r.body :=
  (downloadWithProgress_of_reaches server resolveUrl true h fuel hfuel).1 h200 rfl

/-- C4 witness: a concrete 301-then-302 chain ending in a 200 yields
exactly the final body. -/
theorem download_follows_redirect_chains_witness :
    downloadWithProgress srvChain (fun l _ => l) true 3 "https://a.test/x"
      = .ok "PAYLOAD" := by
  have h2 : ReachesIn srvChain (fun l _ => l) 0 "https://c.test/z"
      ⟨200, none, "PAYLOAD"⟩ := .direct _ _ (by decide) (by decide)
  have h1 : ReachesIn srvChain (fun l _ => l) 1 "https://b.test/y"
      ⟨200, none, "PAYLOAD"⟩ :=
    .step _ ⟨302, some "https://c.test/z", ""⟩ _ _ (by decide) (by decide) h2
  have h0 : ReachesIn srvChain (fun l _ => l) 2 "https://a.test/x"
      ⟨200, none, "PAYLOAD"⟩ :=
    .step _ ⟨301, some "https://b.test/y", ""⟩ _ _ (by decide) (by decide) h1
  exact download_follows_redirect_chains srvChain (fun l _ => l) 2 _ _ 3 h0 rfl
    (by omega)

/-- C3 counterexample: the code rejects a final response whose status is
204 — a 2xx success status, neither a network error nor a timeout — so the
download does not fail exactly on non-2xx/non-3xx final statuses. -/
theorem download_fails_on_status_204 :
    downloadWithProgress srv204 (fun l _ => l) true 1 "https://a.test/x"
      = .err "Download failed - status 204\nURL: https://a.test/x" ∧
    srv204 "https://a.test/x" = .response ⟨204, none, ""⟩ ∧
    (200 ≤ 204 ∧ 204 < 300) := ⟨by decide, rfl, by omega⟩

/-- C3 amended: with 3xx-plus-Location redirects followed, the download
fails exactly when the final response has a status other than 200 or the
destination write fails; it also fails whenever the redirect path ends in a
network error or timeout; and on any download failure the installer exits
with code 1 and attempts to delete the marker file. -/
theorem download_failure_characterization (env : InstallEnv) :
    (∀ n r, ReachesIn env.server env.resolveUrl n (archiveUrl env.version) r →
      n < env.downloadFuel →
      ((∃ e, downloadOutcome env = .err e) ↔
        (r.status ≠ 200 ∨ env.destWriteOk = false))) ∧
    (∀ n, NetFailsIn env.server env.resolveUrl n (archiveUrl env.version) →
      n < env.downloadFuel → ∃ e, downloadOutcome env = .err e) ∧
    (∀ e, downloadOutcome env = .err e →
      shouldSkipDownload env.version env.readMarker env.accessDest = false →
      (runInstaller env).exitCode = 1 ∧
      (runInstaller env).markerAction = .deleteAttempted) := by
  refine ⟨fun n r h hfuel => ?_, fun n h hfuel => ?_, fun e he hskip => ?_⟩
  · constructor
    · rintro ⟨e, he⟩
      by_contra hc
      push_neg at hc
      obtain ⟨h200, hw⟩ := hc
      have hok := (downloadWithProgress_of_reaches env.server env.resolveUrl
        env.destWriteOk h env.downloadFuel hfuel).1 h200
        (Bool.ne_false_iff.mp hw)
      simp only [downloadOutcome] at he
      rw [he] at hok
      exact DownloadResult.noConfusion hok
    · intro hbad
      simp only [downloadOutcome]
      exact (downloadWithProgress_of_reaches env.server env.resolveUrl
        env.destWriteOk h env.downloadFuel hfuel).2 hbad
  · simp only [downloadOutcome]
    exact downloadWithProgress_err_of_netfails env.server env.resolveUrl
      env.destWriteOk h env.downloadFuel hfuel
  · have hbody : installBody env = .error e := by simp [installBody, he]
    rw [runInstaller_of_error env hskip e hbody]
    exact ⟨rfl, rfl⟩

/-- C3 amended witness: a 404 on the archive URL makes the installer exit
with code 1 and attempt marker deletion. -/
theorem download_failure_characterization_witness :
    (runInstaller env404).exitCode = 1 ∧
    (runInstaller env404).markerAction = .deleteAttempted := by
  have hreach : ReachesIn env404.server env404.resolveUrl 0
      (archiveUrl env404.version) ⟨404, none, ""⟩ := .direct _ _ rfl (by decide)
  obtain ⟨e, he⟩ := ((download_failure_characterization env404).1 0 _ hreach
    (by decide)).mpr (Or.inl (by decide))
  exact (download_failure_characterization env404).2.2 e he (by decide)

/-- C6: after a run that fully succeeds (exit 0 with all six members
placed), a second run with the same version against the file-system state
that run leaves behind — marker containing exactly the version, all six
destinations present — performs no writes: no fetch, no temporary
directory, no marker mutation, no placement. -/
theorem installer_idempotent_after_success (env1 env2 : InstallEnv)
    (hfull : (runInstaller env1).exitCode = 0 ∧
      (runInstaller env1).placedCount = binaries.length)
    (hvtrim : jsTrim env1.version = env1.version)
    (hver : env2.version = env1.version)
    (hmarker : env2.readMarker = .content env1.version)
    (hdest : ∀ bin ∈ binaries, env2.accessDest bin.dest = true) :
    (runInstaller env2).fetchAttempted = false ∧
    (runInstaller env2).tempCreated = false ∧
    (runInstaller env2).markerAction = .untouched ∧
    (runInstaller env2).placedCount = 0 ∧
    (runInstaller env2).exitCode = 0 := by
  have hskip : shouldSkipDownload env2.version env2.readMarker env2.accessDest
      = true :=
    (shouldSkipDownload_eq_true_iff _ _ _).mpr
      ⟨env1.version, hmarker, by rw [hvtrim, hver], hdest⟩
  rw [runInstaller_of_skip env2 hskip]
  exact ⟨rfl, rfl, rfl, rfl, rfl⟩

/-- C6 witness: after the fully successful run `envFull`, the second run
`envSecond` over the resulting state does nothing. -/
theorem installer_idempotent_after_success_witness :
    (runInstaller envSecond).fetchAttempted = false ∧
    (runInstaller envSecond).tempCreated = false ∧
    (runInstaller envSecond).markerAction = .untouched ∧
    (runInstaller envSecond).placedCount = 0 ∧
    (runInstaller envSecond).exitCode = 0 :=
  installer_idempotent_after_success envFull envSecond (by decide) (by decide)
    rfl rfl (by decide)

/-- C7 counterexample: a failing run whose temporary-directory removal
itself fails terminates with the temporary directory still on disk, so the
installer can leave its temp directory behind. -/
theorem temp_dir_left_behind_when_rm_fails :
    (runInstaller envRmFail).tempCreated = true ∧
    (runInstaller envRmFail).tempRemoveAttempted = true ∧
    (runInstaller envRmFail).tempRemoved = false := by decide

/-- C7 amended: on every exit path that created a temporary directory the
installer attempts its recursive forced removal, and the directory is gone
whenever that removal call succeeds; a failing removal is only logged, so
the directory may survive it.  Runs that created no temporary directory
attempt no removal. -/
theorem temp_cleanup_on_every_path (env : InstallEnv) :
    ((runInstaller env).tempCreated = true →
      (runInstaller env).tempRemoveAttempted = true) ∧
    ((runInstaller env).tempCreated = true → env.rmTempOk = true →
      (runInstaller env).tempRemoved = true) ∧
    ((runInstaller env).tempCreated = false →
      (runInstaller env).tempRemoveAttempted = false) := by
  by_cases h : shouldSkipDownload env.version env.readMarker env.accessDest = true
  · rw [runInstaller_of_skip env h]
    exact ⟨fun hc => Bool.noConfusion hc, fun hc _ => Bool.noConfusion hc,
      fun _ => rfl⟩
  · have h' := Bool.eq_false_iff.mpr h
    cases hb : installBody env with
    | ok v =>
      obtain ⟨ma, c, w, s⟩ := v
      rw [runInstaller_of_ok env h' ma c w s hb]
      exact ⟨fun _ => rfl, fun _ hrm => hrm, fun hc => Bool.noConfusion hc⟩
    | error e =>
      rw [runInstaller_of_error env h' e hb]
      exact ⟨fun _ => rfl, fun _ hrm => hrm, fun hc => Bool.noConfusion hc⟩

/-- C7 amended witness: the fully successful run creates a temporary
directory, attempts its removal, and removes it. -/
theorem temp_cleanup_on_every_path_witness :
    (runInstaller envFull).tempRemoveAttempted = true ∧
    (runInstaller envFull).tempRemoved = true :=
  ⟨(temp_cleanup_on_every_path envFull).1 (by decide),
   (temp_cleanup_on_every_path envFull).2.1 (by decide) rfl⟩

theorem copyAll_eq_none_iff (srcExists : String → Bool)
    (l : List (String × String)) :
    copyAll srcExists l = none ↔ ∃ p ∈ l, srcExists p.2 = false := by
  induction l with
  | nil => simp [copyAll]
  | cons entry rest ih =>
    by_cases h : srcExists entry.2 = true
    · simp [copyAll, h, Option.map_eq_none', ih]
    · have h' := Bool.eq_false_iff.mpr h
      simp [copyAll, h']

/-- C8: the publisher exits non-zero with no side effect at all when a
required environment variable is missing, and exits non-zero before
creating the archive — hence producing no archive and attempting no
upload — when any of the six source files is missing. -/
theorem publisher_aborts_on_missing (env : PublishEnv) :
    ((env.s3Endpoint = "" ∨ env.awsKeyId = "" ∨ env.awsSecret = "" ∨
        env.s3Bucket = "") →
      (runPublisher env).exitCode = 1 ∧
      (runPublisher env).tmpDirCreated = false ∧
      (runPublisher env).archiveCreated = false ∧
      (runPublisher env).uploadAttempted = false) ∧
    ((∃ p ∈ SOURCES, env.srcExists p.2 = false) →
      (runPublisher env).exitCode = 1 ∧
      (runPublisher env).archiveCreated = false ∧
      (runPublisher env).uploadAttempted = false) := by
  constructor
  · intro h
    simp [runPublisher, if_pos h]
  · intro h
    by_cases henv : env.s3Endpoint = "" ∨ env.awsKeyId = "" ∨
        env.awsSecret = "" ∨ env.s3Bucket = ""
    · simp [runPublisher, if_pos henv]
    · by_cases hver : env.versionStr = ""
      · simp [runPublisher, if_neg henv, if_pos hver]
      · have hcopy := (copyAll_eq_none_iff env.srcExists SOURCES).mpr h
        simp [runPublisher, if_neg henv, if_neg hver, hcopy]

/-- C8 witness: a missing secret aborts with no side effects; a missing
iOS source library aborts before the archive exists and without any
upload. -/
theorem publisher_aborts_on_missing_witness :
    ((runPublisher pubEnvNoSecret).exitCode = 1 ∧
     (runPublisher pubEnvNoSecret).tmpDirCreated = false ∧
     (runPublisher pubEnvNoSecret).archiveCreated = false ∧
     (runPublisher pubEnvNoSecret).uploadAttempted = false) ∧
    ((runPublisher pubEnvMissingSrc).exitCode = 1 ∧
     (runPublisher pubEnvMissingSrc).archiveCreated = false ∧
     (runPublisher pubEnvMissingSrc).uploadAttempted = false) :=
  ⟨(publisher_aborts_on_missing pubEnvNoSecret).1 (Or.inr (Or.inr (Or.inl rfl))),
   (publisher_aborts_on_missing pubEnvMissingSrc).2
     ⟨("ios-arm64.a", "ios/VellaSDK.xcframework/ios-arm64/libvella_sdk.a"),
       by decide, by decide⟩⟩

end VellaSDK
